import Mathlib

/-!
Verification of the CloudHelm cost/health engine against its specification.

The Python services are shallowly embedded: records and store rows become
structures, SQL queries become list filters, pandas group-bys become
dedup/filter sums, and Python floats become exact rationals (the spec
states its numeric properties up to floating-point rounding). Dates are
modelled as day indices (`Nat`); day-of-week is the index mod 7.
-/

namespace CloudHelm

/-- A raw cost fact (`CloudCost` in `backend/models/cost.py`): optional
dimensions are `Option String`, the amount a rational. -/
structure CloudCost where
  ts_date : Nat
  cloud : String
  team : Option String
  service : Option String
  region : Option String
  env : Option String
  cost_amount : ℚ
  deriving DecidableEq, Repr

/-- Dimension tuple keying a `CostAggregate` row: absent dimensions are
persisted as SQL NULL, embedded as `none`. -/
structure AggKey where
  ts_date : Nat
  cloud : String
  team : Option String
  service : Option String
  region : Option String
  env : Option String
  deriving DecidableEq, Repr

/-- A `CostAggregate` row: unique dimension tuple plus summed total. -/
structure CostAggregate where
  key : AggKey
  total_cost : ℚ
  deriving DecidableEq, Repr

/-- Python `value or STAR` as used in `recompute_cost_aggregates`
(`cost.team or STAR` with the star sentinel): both `None` and the empty
string are falsy and collapse to the sentinel. -/
def orStar : Option String → String
  | none => "*"
  | some s => if s = "" then "*" else s

/-- Inverse sentinel step used when persisting a group key
(`None if row[dim] == STAR else row[dim]` with the star sentinel). -/
def unstar (s : String) : Option String :=
  if s = "*" then none else some s

/-- In-memory group key built by `recompute_cost_aggregates` lines 56-73:
each optional dimension passes through the `or` sentinel before the
pandas group-by. -/
structure GroupKey where
  ts_date : Nat
  cloud : String
  team : String
  service : String
  region : String
  env : String
  deriving DecidableEq, Repr

def sentinelKey (c : CloudCost) : GroupKey :=
  ⟨c.ts_date, c.cloud, orStar c.team, orStar c.service, orStar c.region, orStar c.env⟩

/-- The persisted form of a group key (lines 83-101): the sentinel is
turned back into an explicit NULL. -/
def persistKey (k : GroupKey) : AggKey :=
  ⟨k.ts_date, k.cloud, unstar k.team, unstar k.service, unstar k.region, unstar k.env⟩

/-- The pandas `groupby(...)['cost_amount'].sum()` of lines 68-73: one
entry per distinct sentinel key, carrying the sum of the matching
records' amounts. -/
def groupTotals (records : List CloudCost) : List (GroupKey × ℚ) :=
  ((records.map sentinelKey).dedup).map fun k =>
    (k, ((records.filter fun c => decide (sentinelKey c = k)).map CloudCost.cost_amount).sum)

/-- One iteration of the upsert loop (lines 77-106): the first row whose
key matches has its `total_cost` overwritten, otherwise a fresh row is
appended. -/
def upsertAggregate (store : List CostAggregate) (k : AggKey) (v : ℚ) : List CostAggregate :=
  match store with
  | [] => [⟨k, v⟩]
  | a :: rest => if a.key = k then ⟨k, v⟩ :: rest else a :: upsertAggregate rest k v

/-- The whole upsert loop folded over the grouped rows. -/
def upsertAll (store : List CostAggregate) (ps : List (AggKey × ℚ)) : List CostAggregate :=
  ps.foldl (fun s p => upsertAggregate s p.1 p.2) store

/-- Group totals with their keys already in persisted (NULL-carrying)
form, as handed to the upsert loop. -/
def persistedGroups (records : List CloudCost) : List (AggKey × ℚ) :=
  (groupTotals records).map fun g => (persistKey g.1, g.2)

/-- `recompute_cost_aggregates` (`backend/services/cost_aggregation.py`
lines 15-109) over an explicit inclusive date range: filters the raw
records to the range, groups with the sentinel, and upserts every group;
returns the count of rows touched (the loop increments once per group)
and the new aggregate store. -/
def recompute_cost_aggregates (store : List CostAggregate) (records : List CloudCost)
    (start_date end_date : Nat) : Nat × List CostAggregate :=
  let costs := records.filter fun c => decide (start_date ≤ c.ts_date ∧ c.ts_date ≤ end_date)
  if costs.isEmpty then (0, store)
  else
    let ps := persistedGroups costs
    (ps.length, upsertAll store ps)

/-- Month projection from `get_budget_statuses` lines 160-164:
`(mtd / days_passed) * days_in_month`, or 0 when no day has elapsed. -/
def project_cost (mtd : ℚ) (days_passed days_in_month : Nat) : ℚ :=
  if 0 < days_passed then (mtd / (days_passed : ℚ)) * (days_in_month : ℚ) else 0

/-- Budget classification from `get_budget_statuses` lines 166-173.
The float literals 0.9 and 1.1 are the rationals 9/10 and 11/10. -/
def budget_status (projected budget_amount : ℚ) : String :=
  if projected < 9/10 * budget_amount then "UNDER"
  else if projected ≤ 11/10 * budget_amount then "AT_RISK"
  else "OVER"

/-- Direction assignment from `recompute_cost_anomalies` lines 141-145:
spike exactly when the actual cost exceeds the 7-day trailing mean. -/
def anomaly_direction (actual expected : ℚ) : String :=
  if expected < actual then "spike" else "drop"

/-- Severity assignment from `recompute_cost_anomalies` lines 147-157,
with 0.5 and 0.25 as exact rationals. -/
def anomaly_severity (actual expected : ℚ) : String :=
  if 0 < expected then
    if 1/2 < |actual - expected| / expected then "high"
    else if 1/4 < |actual - expected| / expected then "medium"
    else "low"
  else "medium"

/-- `HealthService.calculate_health_score` lines 148-181: penalty terms
subtracted from 100, clamped into [0, 100]. The source multiplies the
error rate by 50 with no cap. -/
def calculate_health_score (error_rate latency_p99 cpu_usage : ℚ) : ℚ :=
  max 0 (min 100 (100 - error_rate * 50 - min (latency_p99 / 1000) 30 - min cpu_usage 20))

/-- `HealthService.get_status_from_health` lines 183-201. -/
def get_status_from_health (health_score : ℚ) : String :=
  if 90 ≤ health_score then "healthy"
  else if 70 ≤ health_score then "degraded"
  else if 50 ≤ health_score then "warning"
  else "critical"

/-- A `MetricsAnomaly` row (`backend/models/health.py`), also standing in
for the anomaly dict handed to `store_anomaly` (same fields). -/
structure MetricsAnomaly where
  service_name : String
  timestamp : Nat
  anomaly_type : String
  severity : String
  anomaly_score : ℚ
  affected_metrics : List String
  description : String
  deriving DecidableEq, Repr

/-- The key `store_anomaly` deduplicates on (lines 306-310). -/
def anomKey (a : MetricsAnomaly) : String × Nat × String :=
  (a.service_name, a.timestamp, a.anomaly_type)

/-- `AnomalyDetectionService.store_anomaly` lines 290-332: the first row
matching on (service, timestamp, anomaly_type) is returned with the store
untouched; otherwise a new row built from the dict is appended. -/
def store_anomaly (store : List MetricsAnomaly) (a : MetricsAnomaly) :
    MetricsAnomaly × List MetricsAnomaly :=
  match store.find? (fun r => decide (anomKey r = anomKey a)) with
  | some existing => (existing, store)
  | none => (a, store ++ [a])

/-- A health-metric feature vector, row of the matrix built by
`get_metric_features` lines 85-96. -/
structure FeatureVec where
  request_rate : ℚ
  error_rate : ℚ
  latency_p99 : ℚ
  cpu_usage : ℚ
  memory_usage : ℚ
  deriving DecidableEq, Repr

/-- The metric names of `identify_affected_metrics` line 272. -/
def metric_names : List String :=
  ["request_rate", "error_rate", "latency_p99", "cpu_usage", "memory_usage"]

/-- Column mean across the window (`all_features.mean(axis=0)`). -/
def colMean (all : List FeatureVec) (f : FeatureVec → ℚ) : ℚ :=
  (all.map f).sum / (all.length : ℚ)

/-- Column population variance; numpy `std(axis=0)` is its square root. -/
def colVar (all : List FeatureVec) (f : FeatureVec → ℚ) : ℚ :=
  (all.map fun v => (f v - colMean all f) ^ 2).sum / (all.length : ℚ)

/-- The per-feature test of `identify_affected_metrics` lines 283-285:
`std > 0 and abs(value - mean) > 2 * std`. The square root has no exact
rational form, so the test is embedded by its square — `var > 0` and
`(value - mean)^2 > (2*std)^2 = 4*var` — which is equivalent because both
`abs(value - mean)` and `2*std` are nonnegative reals. -/
def deviates (fv : FeatureVec) (all : List FeatureVec) (f : FeatureVec → ℚ) : Bool :=
  decide (0 < colVar all f ∧ 4 * colVar all f < (f fv - colMean all f) ^ 2)

/-- The five feature columns in matrix order, paired with their names. -/
def featureAccessors : List ((FeatureVec → ℚ) × String) :=
  [(FeatureVec.request_rate, "request_rate"), (FeatureVec.error_rate, "error_rate"),
   (FeatureVec.latency_p99, "latency_p99"), (FeatureVec.cpu_usage, "cpu_usage"),
   (FeatureVec.memory_usage, "memory_usage")]

/-- The `affected` list accumulated by the loop of lines 283-285. -/
def affectedFeatures (fv : FeatureVec) (all : List FeatureVec) : List String :=
  (featureAccessors.filter fun p => deviates fv all p.1).map Prod.snd

/-- `AnomalyDetectionService.identify_affected_metrics` lines 257-288:
fewer than 2 samples returns all names, otherwise the deviating features,
falling back to all names when none deviates (Python list truthiness). -/
def identify_affected_metrics (fv : FeatureVec) (all : List FeatureVec) : List String :=
  if all.length < 2 then metric_names
  else if affectedFeatures fv all = [] then metric_names
  else affectedFeatures fv all

/-- The up-to-7-value window ending at index i, matching pandas
`rolling(window=7, min_periods=1)` over the cost column. -/
def window7 (costs : List ℚ) (i : Nat) : List ℚ :=
  (costs.take (i + 1)).drop (i + 1 - 7)

def listMean (l : List ℚ) : ℚ := l.sum / (l.length : ℚ)

/-- pandas rolling std uses the sample standard deviation (ddof 1); a
single observation gives NaN, which line 99 of `cost_anomaly.py` fills
with 0. The std is embedded by its square, the sample variance, since
square roots have no exact rational form. -/
def sampleVar (l : List ℚ) : ℚ :=
  if l.length < 2 then 0
  else (l.map fun x => (x - listMean l) ^ 2).sum / ((l.length : ℚ) - 1)

/-- numpy population variance (ddof 0); `X[:,0].std() == 0` holds exactly
when this is 0, since std is its square root. -/
def popVar (l : List ℚ) : ℚ :=
  (l.map fun x => (x - listMean l) ^ 2).sum / (l.length : ℚ)

/-- One row of the feature matrix of `recompute_cost_anomalies` lines
93-107: daily total, 7-day trailing mean, 7-day trailing deviation
(embedded by its square), and day of week (day index mod 7 in the
day-number date model). -/
structure ComboFeature where
  total_cost : ℚ
  rolling_mean_7 : ℚ
  rolling_var_7 : ℚ
  day_of_week : ℚ
  deriving DecidableEq, Repr

/-- The feature matrix for one combination, rows given date-sorted as
(day index, total cost). -/
def comboFeatures (rows : List (Nat × ℚ)) : List ComboFeature :=
  (List.range rows.length).map fun i =>
    ⟨(rows.map Prod.snd).getD i 0,
     listMean (window7 (rows.map Prod.snd) i),
     sampleVar (window7 (rows.map Prod.snd) i),
     (((rows.getD i (0, 0)).1 % 7 : Nat) : ℚ)⟩

/-- Per-combination body of `recompute_cost_anomalies` lines 77-194 for
one (cloud, team, service, env) combination whose in-window aggregate
rows are given date-sorted. ECOD and `np.percentile` are external
libraries, abstracted as the `decisionScore` parameter (the
decision_function of the model fitted on the training slice it is
applied to) and the `pct90` parameter; every flagged test day performs
exactly one upsert (lines 135-194), so the count returned here is the
number of upserts contributed by the combination. -/
def comboAnomalyUpserts
    (decisionScore : List ComboFeature → ComboFeature → ℚ)
    (pct90 : List ℚ → ℚ)
    (min_history_days : Nat)
    (rows : List (Nat × ℚ)) : Nat :=
  if rows.length < min_history_days then 0
  else
    let X := comboFeatures rows
    if popVar (rows.map Prod.snd) = 0 then 0
    else
      let train_size := max min_history_days (rows.length - 3)
      let Xtrain := X.take train_size
      let Xtest := X.drop train_size
      if Xtest.length = 0 then 0
      else
        let threshold := pct90 (Xtrain.map (decisionScore Xtrain))
        ((Xtest.map (decisionScore Xtrain)).filter fun s => decide (threshold < s)).length

/-! ## C1: budget projection and status classification -/

/-- C1 counterexample: at the spec's own example (budget 1000, mtd 300 at
day 10 of a 30-day month), the projected cost is exactly 900 = 0.9×1000,
which the code classifies as AT_RISK, not UNDER. -/
theorem budget_example_not_under :
    project_cost 300 10 30 = 900 ∧
    budget_status (project_cost 300 10 30) 1000 = "AT_RISK" ∧
    budget_status (project_cost 300 10 30) 1000 ≠ "UNDER" := by
  have h : budget_status (project_cost 300 10 30) 1000 = "AT_RISK" := by
    norm_num [project_cost, budget_status]
  exact ⟨by norm_num [project_cost], h, by rw [h]; decide⟩

/-- C1 (amended): the classifier maps projected cost p against budget b
to UNDER iff p < 0.9b, AT_RISK iff 0.9b ≤ p ≤ 1.1b, OVER iff p > 1.1b;
the example of budget 1000 with mtd 300 at day 10 of a 30-day month
projects to exactly 900 and is classified AT_RISK (the boundary value
0.9×1000 falls in the AT_RISK band, not UNDER). -/
theorem budget_status_spec (p b : ℚ) (hb : 0 ≤ b) :
    (budget_status p b = "UNDER" ↔ p < 9/10 * b) ∧
    (budget_status p b = "AT_RISK" ↔ 9/10 * b ≤ p ∧ p ≤ 11/10 * b) ∧
    (budget_status p b = "OVER" ↔ 11/10 * b < p) ∧
    project_cost 300 10 30 = 900 ∧
    budget_status (project_cost 300 10 30) 1000 = "AT_RISK" := by
  have hbb : 9/10 * b ≤ 11/10 * b := by nlinarith
  refine ⟨?_, ?_, ?_, by norm_num [project_cost], by norm_num [project_cost, budget_status]⟩
  · unfold budget_status
    split_ifs with h1 h2
    · exact ⟨fun _ => h1, fun _ => rfl⟩
    · exact ⟨fun h => absurd h (by decide), fun h => absurd h h1⟩
    · exact ⟨fun h => absurd h (by decide), fun h => absurd h h1⟩
  · unfold budget_status
    split_ifs with h1 h2
    · refine ⟨fun h => absurd h (by decide), fun h => absurd h1 ?_⟩
      exact not_lt.mpr h.1
    · exact ⟨fun _ => ⟨not_lt.mp h1, h2⟩, fun _ => rfl⟩
    · exact ⟨fun h => absurd h (by decide), fun h => absurd h.2 h2⟩
  · unfold budget_status
    split_ifs with h1 h2
    · exact ⟨fun h => absurd h (by decide), fun h => absurd h (not_lt.mpr (by linarith))⟩
    · exact ⟨fun h => absurd h (by decide), fun h => absurd h (not_lt.mpr h2)⟩
    · exact ⟨fun _ => not_le.mp h2, fun _ => rfl⟩

/-- Witness for `budget_status_spec` at p = 900, b = 1000. -/
theorem budget_status_spec_witness :
    (0 : ℚ) ≤ 1000 ∧
      (budget_status 900 1000 = "AT_RISK" ↔
        9/10 * (1000 : ℚ) ≤ 900 ∧ (900 : ℚ) ≤ 11/10 * 1000) :=
  ⟨by norm_num, (budget_status_spec 900 1000 (by norm_num)).2.1⟩

/-! ## C6: cost-anomaly direction and severity -/

/-- C6: direction is spike exactly when actual exceeds the 7-day trailing
mean, drop otherwise; for positive expected cost the severity partitions
the relative deviation into low (≤ 1/4), medium ((1/4, 1/2]), and high
(> 1/2); expected = 0 maps to medium. -/
theorem cost_anomaly_classification (actual expected : ℚ) :
    (expected = 0 → anomaly_severity actual expected = "medium") ∧
    (0 < expected →
      ((anomaly_severity actual expected = "high" ↔
          1/2 < |actual - expected| / expected) ∧
       (anomaly_severity actual expected = "medium" ↔
          1/4 < |actual - expected| / expected ∧ |actual - expected| / expected ≤ 1/2) ∧
       (anomaly_severity actual expected = "low" ↔
          |actual - expected| / expected ≤ 1/4))) ∧
    (anomaly_direction actual expected = "spike" ↔ expected < actual) ∧
    (anomaly_direction actual expected = "drop" ↔ actual ≤ expected) := by
  refine ⟨?_, ?_, ?_, ?_⟩
  · intro h
    unfold anomaly_severity
    rw [if_neg (by rw [h]; exact lt_irrefl 0)]
  · intro hpos
    unfold anomaly_severity
    rw [if_pos hpos]
    split_ifs with h1 h2
    · exact ⟨⟨fun _ => h1, fun _ => rfl⟩,
        ⟨fun h => absurd h (by decide), fun h => absurd h1 (not_lt.mpr h.2)⟩,
        ⟨fun h => absurd h (by decide), fun h => absurd h1 (not_lt.mpr (h.trans (by norm_num)))⟩⟩
    · exact ⟨⟨fun h => absurd h (by decide), fun h => absurd h h1⟩,
        ⟨fun _ => ⟨h2, not_lt.mp h1⟩, fun _ => rfl⟩,
        ⟨fun h => absurd h (by decide), fun h => absurd h2 (not_lt.mpr h)⟩⟩
    · exact ⟨⟨fun h => absurd h (by decide), fun h => absurd h h1⟩,
        ⟨fun h => absurd h (by decide), fun h => absurd h.1 h2⟩,
        ⟨fun _ => not_lt.mp h2, fun _ => rfl⟩⟩
  · unfold anomaly_direction
    split_ifs with h
    · exact ⟨fun _ => h, fun _ => rfl⟩
    · exact ⟨fun hx => absurd hx (by decide), fun hx => absurd hx h⟩
  · unfold anomaly_direction
    split_ifs with h
    · exact ⟨fun hx => absurd hx (by decide), fun hx => absurd h (not_lt.mpr hx)⟩
    · exact ⟨fun _ => not_lt.mp h, fun _ => rfl⟩

/-- Witness for `cost_anomaly_classification` at actual = 4, expected = 2
(deviation 1 > 1/2, severity high). -/
theorem cost_anomaly_classification_witness :
    0 < (2 : ℚ) ∧ (anomaly_severity 4 2 = "high" ↔ 1/2 < |(4 : ℚ) - 2| / 2) :=
  ⟨by norm_num, ((cost_anomaly_classification 4 2).2.1 (by norm_num)).1⟩

/-! ## C7: health score and status buckets -/

/-- C7: for error rates in [0,1] the health score equals the spec's
clamped formula (the uncapped error term agrees with min(er×50, 50)
because er ≤ 1); status buckets are healthy ≥ 90, degraded [70, 90),
warning [50, 70), critical < 50; the example snapshot
(error_rate 0.02, latency_p99 1200, cpu 40) scores 77.8, degraded. -/
theorem health_score_spec (er lat cpu : ℚ) (_h0 : 0 ≤ er) (h1 : er ≤ 1) :
    calculate_health_score er lat cpu
      = max 0 (min 100 (100 - min (er * 50) 50 - min (lat / 1000) 30 - min cpu 20)) ∧
    (∀ s : ℚ,
      (get_status_from_health s = "healthy" ↔ 90 ≤ s) ∧
      (get_status_from_health s = "degraded" ↔ 70 ≤ s ∧ s < 90) ∧
      (get_status_from_health s = "warning" ↔ 50 ≤ s ∧ s < 70) ∧
      (get_status_from_health s = "critical" ↔ s < 50)) ∧
    calculate_health_score (2/100) 1200 40 = 778/10 ∧
    get_status_from_health (calculate_health_score (2/100) 1200 40) = "degraded" := by
  have hcap : min (er * 50) 50 = er * 50 := min_eq_left (by linarith)
  have hex : calculate_health_score (2/100) 1200 40 = 778/10 := by
    norm_num [calculate_health_score]
  refine ⟨by rw [calculate_health_score, hcap], ?_, hex, by rw [hex]; norm_num [get_status_from_health]⟩
  intro s
  unfold get_status_from_health
  split_ifs with g1 g2 g3
  · exact ⟨⟨fun _ => g1, fun _ => rfl⟩,
      ⟨fun h => absurd h (by decide), fun h => absurd g1 (not_le.mpr h.2)⟩,
      ⟨fun h => absurd h (by decide), fun h => absurd g1 (not_le.mpr (h.2.trans (by norm_num)))⟩,
      ⟨fun h => absurd h (by decide), fun h => absurd g1 (not_le.mpr (h.trans_le (by norm_num)))⟩⟩
  · exact ⟨⟨fun h => absurd h (by decide), fun h => absurd h g1⟩,
      ⟨fun _ => ⟨g2, not_le.mp g1⟩, fun _ => rfl⟩,
      ⟨fun h => absurd h (by decide), fun h => absurd g2 (not_le.mpr h.2)⟩,
      ⟨fun h => absurd h (by decide), fun h => absurd g2 (not_le.mpr (h.trans_le (by norm_num)))⟩⟩
  · exact ⟨⟨fun h => absurd h (by decide), fun h => absurd h g1⟩,
      ⟨fun h => absurd h (by decide), fun h => absurd h.1 g2⟩,
      ⟨fun _ => ⟨g3, not_le.mp g2⟩, fun _ => rfl⟩,
      ⟨fun h => absurd h (by decide), fun h => absurd g3 (not_le.mpr h)⟩⟩
  · exact ⟨⟨fun h => absurd h (by decide), fun h => absurd h g1⟩,
      ⟨fun h => absurd h (by decide), fun h => absurd h.1 g2⟩,
      ⟨fun h => absurd h (by decide), fun h => absurd h.1 g3⟩,
      ⟨fun _ => not_le.mp g3, fun _ => rfl⟩⟩

/-- Witness for `health_score_spec` at the spec's example snapshot. -/
theorem health_score_spec_witness :
    ((0 : ℚ) ≤ 2/100 ∧ (2 : ℚ)/100 ≤ 1) ∧
      (calculate_health_score (2/100) 1200 40 = 778/10 ∧
        get_status_from_health (calculate_health_score (2/100) 1200 40) = "degraded") :=
  ⟨⟨by norm_num, by norm_num⟩,
    (health_score_spec (2/100) 1200 40 (by norm_num) (by norm_num)).2.2⟩

/-! ## C8: idempotent metric-anomaly persistence -/

/-- C8: over a store whose rows are pairwise distinct on the key
(service, timestamp, anomaly_type), `store_anomaly` with an already
present key returns a stored row bearing that key and leaves the store
unchanged; and in all cases the resulting store is still pairwise
distinct on the key, so at most one row per key ever exists. -/
theorem store_anomaly_idempotent (store : List MetricsAnomaly) (a : MetricsAnomaly)
    (huniq : store.Pairwise fun r1 r2 => anomKey r1 ≠ anomKey r2) :
    ((∃ r ∈ store, anomKey r = anomKey a) →
      (store_anomaly store a).2 = store ∧
      (store_anomaly store a).1 ∈ store ∧
      anomKey (store_anomaly store a).1 = anomKey a) ∧
    (store_anomaly store a).2.Pairwise (fun r1 r2 => anomKey r1 ≠ anomKey r2) := by
  unfold store_anomaly
  cases hf : store.find? (fun r => decide (anomKey r = anomKey a)) with
  | some e =>
      have hmem : e ∈ store := List.mem_of_find?_eq_some hf
      have hkey : anomKey e = anomKey a := by simpa using List.find?_some hf
      exact ⟨fun _ => ⟨rfl, hmem, hkey⟩, huniq⟩
  | none =>
      have hnone : ∀ r ∈ store, anomKey r ≠ anomKey a := by
        intro r hr
        simpa using List.find?_eq_none.mp hf r hr
      constructor
      · rintro ⟨r, hr, hk⟩
        exact absurd hk (hnone r hr)
      · rw [List.pairwise_append]
        refine ⟨huniq, List.pairwise_singleton _ _, ?_⟩
        intro r hr b hb
        have hb' : b = a := by simpa using hb
        subst hb'
        exact hnone r hr

/-- Rows used to witness `store_anomaly_idempotent`: same key, different
payload. -/
def sampleStoredAnomaly : MetricsAnomaly :=
  ⟨"api", 5, "metric_deviation", "low", 1/2, ["cpu_usage"], "stored"⟩

def sampleRedetectedAnomaly : MetricsAnomaly :=
  ⟨"api", 5, "metric_deviation", "high", 9/10, ["error_rate"], "redetected"⟩

/-- Witness for `store_anomaly_idempotent`: re-detecting the key of the
stored row returns it unchanged and adds nothing. -/
theorem store_anomaly_idempotent_witness :
    (store_anomaly [sampleStoredAnomaly] sampleRedetectedAnomaly).2 = [sampleStoredAnomaly] ∧
    (store_anomaly [sampleStoredAnomaly] sampleRedetectedAnomaly).1 ∈ [sampleStoredAnomaly] ∧
    anomKey (store_anomaly [sampleStoredAnomaly] sampleRedetectedAnomaly).1
      = anomKey sampleRedetectedAnomaly :=
  (store_anomaly_idempotent [sampleStoredAnomaly] sampleRedetectedAnomaly
      (List.pairwise_singleton _ _)).1
    ⟨sampleStoredAnomaly, by simp, by decide⟩

/-! ## C10: affected-metric attribution is never empty -/

/-- C10: `identify_affected_metrics` never returns an empty list — with
fewer than 2 samples it returns all five metric names, otherwise the
deviating features (more than 2 standard deviations from the column
mean, zero-variance columns skipped), falling back to the full
five-name list when no feature deviates. -/
theorem identify_affected_metrics_nonempty (fv : FeatureVec) (all : List FeatureVec) :
    identify_affected_metrics fv all ≠ [] ∧
    metric_names.length = 5 ∧
    (all.length < 2 → identify_affected_metrics fv all = metric_names) ∧
    (affectedFeatures fv all = [] → identify_affected_metrics fv all = metric_names) ∧
    (2 ≤ all.length → affectedFeatures fv all ≠ [] →
      identify_affected_metrics fv all = affectedFeatures fv all) := by
  unfold identify_affected_metrics
  split_ifs with h1 h2
  · exact ⟨by decide, rfl, fun _ => rfl, fun _ => rfl, fun hle _ => absurd h1 (not_lt.mpr hle)⟩
  · exact ⟨by decide, rfl, fun h => absurd h h1, fun _ => rfl, fun _ hne => absurd h2 hne⟩
  · exact ⟨h2, rfl, fun h => absurd h h1, fun h => absurd h h2, fun _ _ => rfl⟩

/-- Witness for `identify_affected_metrics_nonempty`: an empty window
falls back to the full metric-name list. -/
theorem identify_affected_metrics_witness :
    ([] : List FeatureVec).length < 2 ∧
      identify_affected_metrics ⟨0, 0, 0, 0, 0⟩ [] = metric_names :=
  ⟨by decide, (identify_affected_metrics_nonempty ⟨0, 0, 0, 0, 0⟩ []).2.2.1 (by decide)⟩

/-! ## C9: a combination with exactly the minimum history is skipped -/

/-- The feature matrix has one row per aggregate row. -/
theorem comboFeatures_length (rows : List (Nat × ℚ)) :
    (comboFeatures rows).length = rows.length := by
  simp [comboFeatures]

/-- C9: for any scorer and percentile function, a combination whose
in-window history has exactly the minimum-history length (14 rows)
contributes zero upserts: the training prefix is forced up to
max(14, 14-3) = 14 rows, the test suffix is empty, and the combination
is skipped even though it passes the minimum-history check. -/
theorem combo_min_history_zero_upserts
    (decisionScore : List ComboFeature → ComboFeature → ℚ) (pct90 : List ℚ → ℚ)
    (rows : List (Nat × ℚ)) (h : rows.length = 14) :
    comboAnomalyUpserts decisionScore pct90 14 rows = 0 := by
  have hlen : (comboFeatures rows).length = rows.length := comboFeatures_length rows
  simp only [comboAnomalyUpserts]
  split_ifs with h1 h2 h3
  · rfl
  · rfl
  · rfl
  · exact absurd (by rw [List.length_drop, hlen]; omega) h3

/-- Witness for `combo_min_history_zero_upserts`: a 14-day history with
strictly increasing (hence non-constant) costs yields zero upserts. -/
theorem combo_min_history_witness :
    ((List.range 14).map fun (i : Nat) => (i, (i : ℚ))).length = 14 ∧
      comboAnomalyUpserts (fun _ _ => 0) (fun _ => 0) 14
        ((List.range 14).map fun (i : Nat) => (i, (i : ℚ))) = 0 :=
  ⟨by rw [List.length_map, List.length_range],
    combo_min_history_zero_upserts (fun _ _ => 0) (fun _ => 0) _
      (by rw [List.length_map, List.length_range])⟩

/-! ## Aggregator lemmas (C2, C3, C4) -/

/-- Total of the first store row matching a key, the quantity the upsert
loop's existence check observes. -/
def lookupTotal : List CostAggregate → AggKey → Option ℚ
  | [], _ => none
  | a :: rest, k => if a.key = k then some a.total_cost else lookupTotal rest k

theorem lookupTotal_upsert_self (s : List CostAggregate) (k : AggKey) (v : ℚ) :
    lookupTotal (upsertAggregate s k v) k = some v := by
  induction s with
  | nil => simp [upsertAggregate, lookupTotal]
  | cons a rest ih =>
      by_cases h : a.key = k
      · simp [upsertAggregate, h, lookupTotal]
      · simp [upsertAggregate, h, lookupTotal, ih]

theorem lookupTotal_upsert_other (s : List CostAggregate) (k : AggKey) (v : ℚ)
    (k2 : AggKey) (hne : k2 ≠ k) :
    lookupTotal (upsertAggregate s k v) k2 = lookupTotal s k2 := by
  induction s with
  | nil => simp [upsertAggregate, lookupTotal, if_neg (Ne.symm hne)]
  | cons a rest ih =>
      by_cases h : a.key = k
      · rw [upsertAggregate, if_pos h]
        show lookupTotal (⟨k, v⟩ :: rest) k2 = lookupTotal (a :: rest) k2
        rw [lookupTotal, lookupTotal]
        rw [if_neg (by exact fun he => hne he.symm), if_neg (by rw [h]; exact fun he => hne he.symm)]
      · rw [upsertAggregate, if_neg h]
        rw [lookupTotal, lookupTotal, ih]

theorem upsert_eq_self (s : List CostAggregate) (k : AggKey) (v : ℚ)
    (h : lookupTotal s k = some v) : upsertAggregate s k v = s := by
  induction s with
  | nil => simp [lookupTotal] at h
  | cons a rest ih =>
      by_cases hk : a.key = k
      · rw [lookupTotal, if_pos hk] at h
        have hv : a.total_cost = v := Option.some.inj h
        rw [upsertAggregate, if_pos hk]
        cases a
        simp_all
      · rw [lookupTotal, if_neg hk] at h
        rw [upsertAggregate, if_neg hk, ih h]

theorem lookupTotal_upsertAll_not_mem (ps : List (AggKey × ℚ)) (s : List CostAggregate)
    (k : AggKey) (h : k ∉ ps.map Prod.fst) :
    lookupTotal (upsertAll s ps) k = lookupTotal s k := by
  induction ps generalizing s with
  | nil => rfl
  | cons p ps ih =>
      rw [List.map_cons] at h
      have h1 : k ≠ p.1 := fun he => h (he ▸ List.mem_cons_self _ _)
      have h2 : k ∉ ps.map Prod.fst := fun hm => h (List.mem_cons_of_mem _ hm)
      show lookupTotal (upsertAll (upsertAggregate s p.1 p.2) ps) k = lookupTotal s k
      rw [ih _ h2, lookupTotal_upsert_other _ _ _ _ h1]

theorem lookupTotal_upsertAll_mem (ps : List (AggKey × ℚ)) (s : List CostAggregate)
    (hnd : (ps.map Prod.fst).Nodup) (p : AggKey × ℚ) (hp : p ∈ ps) :
    lookupTotal (upsertAll s ps) p.1 = some p.2 := by
  induction ps generalizing s with
  | nil => cases hp
  | cons q ps ih =>
      rw [List.map_cons, List.nodup_cons] at hnd
      rcases List.mem_cons.mp hp with h | h
      · subst h
        show lookupTotal (upsertAll (upsertAggregate s p.1 p.2) ps) p.1 = some p.2
        rw [lookupTotal_upsertAll_not_mem ps _ p.1 hnd.1, lookupTotal_upsert_self]
      · show lookupTotal (upsertAll (upsertAggregate s q.1 q.2) ps) p.1 = some p.2
        exact ih _ hnd.2 h

theorem upsertAll_id (ps : List (AggKey × ℚ)) (s : List CostAggregate)
    (h : ∀ p ∈ ps, lookupTotal s p.1 = some p.2) : upsertAll s ps = s := by
  induction ps with
  | nil => rfl
  | cons p ps ih =>
      show upsertAll (upsertAggregate s p.1 p.2) ps = s
      rw [upsert_eq_self s p.1 p.2 (h p (List.mem_cons_self _ _))]
      exact ih fun q hq => h q (List.mem_cons_of_mem _ hq)

theorem unstar_injective : Function.Injective unstar := by
  intro a b h
  simp only [unstar] at h
  by_cases h1 : a = "*"
  · by_cases h2 : b = "*"
    · rw [h1, h2]
    · rw [if_pos h1, if_neg h2] at h
      exact absurd h (by simp)
  · by_cases h2 : b = "*"
    · rw [if_neg h1, if_pos h2] at h
      exact absurd h (by simp)
    · rw [if_neg h1, if_neg h2] at h
      exact Option.some.inj h

theorem persistKey_injective : Function.Injective persistKey := by
  intro a b h
  cases a
  cases b
  simp only [persistKey, AggKey.mk.injEq] at h
  obtain ⟨h1, h2, h3, h4, h5, h6⟩ := h
  simp only [GroupKey.mk.injEq]
  exact ⟨h1, h2, unstar_injective h3, unstar_injective h4,
    unstar_injective h5, unstar_injective h6⟩

/-- The upsert loop visits each persisted key at most once: the pandas
group-by emits distinct sentinel keys and the NULL-restoring translation
is injective. -/
theorem persistedGroups_keys_nodup (records : List CloudCost) :
    ((persistedGroups records).map Prod.fst).Nodup := by
  have he : (persistedGroups records).map Prod.fst
      = ((records.map sentinelKey).dedup).map persistKey := by
    simp [persistedGroups, groupTotals, List.map_map, Function.comp]
  rw [he]
  exact (List.nodup_dedup _).map persistKey_injective

/-! ## C2: the Aggregator is idempotent -/

/-- C2: re-running `recompute_cost_aggregates` over the same raw records
and date range returns the aggregate store of the first run unchanged —
every group key's row is overwritten with the identical recomputed sum,
and nothing is added or duplicated. -/
theorem recompute_cost_aggregates_idempotent (store : List CostAggregate)
    (records : List CloudCost) (start_date end_date : Nat) :
    (recompute_cost_aggregates
        (recompute_cost_aggregates store records start_date end_date).2
        records start_date end_date).2
      = (recompute_cost_aggregates store records start_date end_date).2 := by
  unfold recompute_cost_aggregates
  by_cases h : (records.filter fun c =>
      decide (start_date ≤ c.ts_date ∧ c.ts_date ≤ end_date)).isEmpty
  · simp only [h, if_pos]
  · simp only [h, Bool.false_eq_true, if_false]
    apply upsertAll_id
    intro p hp
    exact lookupTotal_upsertAll_mem _ store (persistedGroups_keys_nodup _) p hp

/-! ## C3: group totals sum to the raw total -/

theorem sum_map_ite_key (ks : List GroupKey) (hnd : ks.Nodup) (x : GroupKey)
    (hx : x ∈ ks) (a : ℚ) (f : GroupKey → ℚ) :
    (ks.map fun k => if x = k then a + f k else f k).sum = a + (ks.map f).sum := by
  induction ks with
  | nil => cases hx
  | cons k0 ks ih =>
      rw [List.nodup_cons] at hnd
      rcases List.mem_cons.mp hx with h | h
      · subst h
        rw [List.map_cons, if_pos rfl, List.sum_cons]
        have hrest : (ks.map fun k => if x = k then a + f k else f k) = ks.map f := by
          apply List.map_congr_left
          intro k hk
          refine if_neg fun he => hnd.1 ?_
          rw [he]
          exact hk
        rw [hrest, List.map_cons, List.sum_cons]
        ring
      · have hne : x ≠ k0 := fun he => hnd.1 (he ▸ h)
        rw [List.map_cons, if_neg hne, List.sum_cons, ih hnd.2 h,
          List.map_cons, List.sum_cons]
        ring

theorem sum_groups_eq_sum_records (records : List CloudCost) (ks : List GroupKey)
    (hnd : ks.Nodup) (hcov : ∀ c ∈ records, sentinelKey c ∈ ks) :
    (ks.map fun k =>
        ((records.filter fun c => decide (sentinelKey c = k)).map CloudCost.cost_amount).sum).sum
      = (records.map CloudCost.cost_amount).sum := by
  induction records with
  | nil => simp
  | cons c cs ih =>
      have hc := hcov c (List.mem_cons_self _ _)
      have hcs : ∀ x ∈ cs, sentinelKey x ∈ ks := fun x hx => hcov x (List.mem_cons_of_mem _ hx)
      have hmap : (ks.map fun k =>
            (((c :: cs).filter fun x => decide (sentinelKey x = k)).map CloudCost.cost_amount).sum)
          = ks.map fun k =>
              if sentinelKey c = k
              then c.cost_amount
                + ((cs.filter fun x => decide (sentinelKey x = k)).map CloudCost.cost_amount).sum
              else ((cs.filter fun x => decide (sentinelKey x = k)).map CloudCost.cost_amount).sum := by
        apply List.map_congr_left
        intro k _
        by_cases h : sentinelKey c = k
        · simp [List.filter_cons, h]
        · simp [List.filter_cons, h]
      rw [hmap, sum_map_ite_key ks hnd _ hc c.cost_amount _, ih hcs,
        List.map_cons, List.sum_cons]

/-- C3: the totals of the groups produced by `recompute_cost_aggregates`
over a date range sum to the total amount of the contributing raw
records (exact rational arithmetic stands in for floats, whose deviation
the spec already allows): grouping by the dimension tuple partitions
the filtered records. -/
theorem aggregate_totals_sum_eq_raw_sum (records : List CloudCost)
    (start_date end_date : Nat) :
    ((persistedGroups (records.filter fun c =>
        decide (start_date ≤ c.ts_date ∧ c.ts_date ≤ end_date))).map Prod.snd).sum
      = ((records.filter fun c =>
          decide (start_date ≤ c.ts_date ∧ c.ts_date ≤ end_date)).map CloudCost.cost_amount).sum := by
  have hsnd : ∀ rs : List CloudCost, ((persistedGroups rs).map Prod.snd).sum
      = (((rs.map sentinelKey).dedup).map fun k =>
          ((rs.filter fun c => decide (sentinelKey c = k)).map CloudCost.cost_amount).sum).sum := by
    intro rs
    rw [persistedGroups, groupTotals, List.map_map, List.map_map]
    exact congrArg List.sum (List.map_congr_left fun k _ => rfl)
  rw [hsnd]
  exact sum_groups_eq_sum_records _ _ (List.nodup_dedup _)
    fun c hc => List.mem_dedup.mpr (List.mem_map_of_mem sentinelKey hc)

/-! ## C4: the star sentinel collides with real data -/

/-- A record whose team is genuinely absent. -/
def noTeamRecord : CloudCost :=
  ⟨5, "aws", none, some "api", some "us-east-1", some "prod", 10⟩

/-- A record whose team is the real string value the sentinel uses. -/
def starTeamRecord : CloudCost :=
  ⟨5, "aws", some "*", some "api", some "us-east-1", some "prod", 7⟩

/-- C4 fails on the code: a record whose team is the literal string
value of the sentinel is merged into the absent-team wildcard group —
the aggregator produces a single row with team NULL totalling both
records, instead of keeping the real value distinct. -/
theorem star_sentinel_merges_real_value :
    noTeamRecord.team = none ∧
    starTeamRecord.team = some "*" ∧
    recompute_cost_aggregates [] [noTeamRecord, starTeamRecord] 0 10
      = (1, [⟨⟨5, "aws", none, some "api", some "us-east-1", some "prod"⟩, 17⟩]) := by
  refine ⟨rfl, rfl, ?_⟩
  norm_num [recompute_cost_aggregates, persistedGroups, groupTotals, upsertAll,
    upsertAggregate, sentinelKey, persistKey, orStar, unstar, noTeamRecord, starTeamRecord,
    List.filter_cons, List.dedup_cons_of_mem, List.dedup_cons_of_not_mem]
  decide

/-! ## Forecaster (C5): `get_cost_forecast` in `backend/routers/cost.py` -/

/-- Python `agg.team or "unassigned"` (line 291): `None` and the empty
string are falsy. -/
def orUnassigned : Option String → String
  | none => "unassigned"
  | some s => if s = "" then "unassigned" else s

inductive ForecastError where
  | insufficientData
  deriving DecidableEq, Repr

/-- Stable insertion into a date-sorted list (Python `sorted` is stable;
an element is placed before the first strictly-later-or-equal date it
precedes in the original order). -/
def insertByDate (p : Nat × ℚ) : List (Nat × ℚ) → List (Nat × ℚ)
  | [] => [p]
  | q :: qs => if p.1 ≤ q.1 then p :: q :: qs else q :: insertByDate p qs

/-- `sorted(data, key=lambda x: x['date'])` of line 307. -/
def sortByDate (l : List (Nat × ℚ)) : List (Nat × ℚ) :=
  l.foldr insertByDate []

/-- Ordinary least squares fit of cost against day offset from `x0`
(lines 313-320). `sklearn.LinearRegression` solves least squares; for a
non-degenerate design this is the textbook slope/intercept pair below,
and for a zero-variance design (denominator 0) the minimum-norm lstsq
solution it computes has slope 0 and intercept mean(y), matching the
guarded branches. -/
def olsFit (pts : List (Nat × ℚ)) (x0 : Nat) : ℚ × ℚ :=
  let n : ℚ := (pts.length : ℚ)
  let xs := pts.map fun p => ((p.1 - x0 : Nat) : ℚ)
  let ys := pts.map Prod.snd
  let sx := xs.sum
  let sy := ys.sum
  let sxx := (xs.map fun x => x * x).sum
  let sxy := ((xs.zip ys).map fun q => q.1 * q.2).sum
  let slope := if n * sxx - sx * sx = 0 then 0 else (n * sxy - sx * sy) / (n * sxx - sx * sx)
  (slope, if n = 0 then 0 else (sy - slope * sx) / n)

/-- One team's forecast series (lines 306-334): sort by date, fit the
line against offsets from the earliest date, predict the `days` dates
after the latest date, clamp negatives to zero
(`np.maximum(forecast_y, 0)`). -/
def teamSeries (days : Nat) (pts : List (Nat × ℚ)) : List (Nat × ℚ) :=
  let sorted := sortByDate pts
  let x0 := (sorted.map Prod.fst).headD 0
  let lastDate := (sorted.map Prod.fst).getLastD 0
  let fit := olsFit sorted x0
  (List.range days).map fun i =>
    (lastDate + i + 1, max 0 (fit.2 + fit.1 * ((lastDate + i + 1 - x0 : Nat) : ℚ)))

/-- The 180-day window of aggregate rows the forecaster queries
(lines 270-280), `today` being `date.today()` as a day index. -/
def forecastWindow (today : Nat) (aggs : List CostAggregate) : List CostAggregate :=
  aggs.filter fun a => decide (today - 180 ≤ a.key.ts_date ∧ a.key.ts_date ≤ today)

/-- The team keys in first-appearance order, matching Python dict
insertion order in the grouping loop of lines 289-297. -/
def teamKeyOrder (window : List CostAggregate) : List String :=
  window.foldl
    (fun acc a =>
      if orUnassigned a.key.team ∈ acc then acc else acc ++ [orUnassigned a.key.team])
    []

/-- `get_cost_forecast` (`backend/routers/cost.py` lines 258-341): with
fewer than 30 aggregate rows in the window the request fails
(HTTP 400, "Insufficient historical data"); otherwise each team with at
least 30 rows contributes a series of `days` forecast points. -/
def get_cost_forecast (today days : Nat) (aggs : List CostAggregate) :
    Except ForecastError (List (String × List (Nat × ℚ))) :=
  let window := forecastWindow today aggs
  if window.length < 30 then Except.error ForecastError.insufficientData
  else
    Except.ok <| (teamKeyOrder window).filterMap fun t =>
      let data := (window.filter fun a => decide (orUnassigned a.key.team = t)).map
        fun a => (a.key.ts_date, a.total_cost)
      if data.length < 30 then none
      else some (t, teamSeries days data)

/-- 30 aggregate rows spanning only 15 distinct days: two teams, 15 days
each, all inside the 180-day window of day 300. -/
def fewDaysAggs : List CostAggregate :=
  ((List.range 15).map fun (i : Nat) =>
    ⟨⟨150 + i, "aws", some "alpha", none, none, none⟩, 10⟩) ++
  ((List.range 15).map fun (i : Nat) =>
    ⟨⟨150 + i, "aws", some "beta", none, none, none⟩, 20⟩)

/-- C5 fails on the code: the insufficient-data check counts aggregate
rows, not days of history. 30 rows spanning only 15 distinct days pass
the check — no `InsufficientDataError` is raised (the call returns an
empty forecast list, both teams having fewer than 30 points), although
fewer than 30 days of trailing history exist. -/
theorem forecast_counts_rows_not_days :
    ((fewDaysAggs.map fun a => a.key.ts_date).dedup).length = 15 ∧
    fewDaysAggs.length = 30 ∧
    get_cost_forecast 300 7 fewDaysAggs ≠ Except.error ForecastError.insufficientData ∧
    get_cost_forecast 300 7 fewDaysAggs = Except.ok [] := by
  have hok : get_cost_forecast 300 7 fewDaysAggs = Except.ok [] := rfl
  refine ⟨by decide, by decide, ?_, hok⟩
  intro h
  rw [hok] at h
  exact Except.noConfusion h

/-- C5 (amended): the forecaster fails with the insufficient-data error
exactly when the 180-day window holds fewer than 30 aggregate rows
(not days); with 30 or more rows it succeeds, and every returned
per-team series has exactly `days` points, each with a projected cost
clamped to at least zero. -/
theorem forecast_spec (today days : Nat) (aggs : List CostAggregate) :
    ((forecastWindow today aggs).length < 30 →
      get_cost_forecast today days aggs = Except.error ForecastError.insufficientData) ∧
    (30 ≤ (forecastWindow today aggs).length →
      ∃ out, get_cost_forecast today days aggs = Except.ok out ∧
        ∀ s ∈ out, s.2.length = days ∧ ∀ p ∈ s.2, 0 ≤ p.2) := by
  constructor
  · intro h
    simp only [get_cost_forecast]
    rw [if_pos h]
  · intro h
    simp only [get_cost_forecast]
    rw [if_neg (not_lt.mpr h)]
    refine ⟨_, rfl, ?_⟩
    intro s hs
    obtain ⟨t, _ht, hmap⟩ := List.mem_filterMap.mp hs
    by_cases hd : (((forecastWindow today aggs).filter fun a =>
        decide (orUnassigned a.key.team = t)).map fun a => (a.key.ts_date, a.total_cost)).length < 30
    · rw [if_pos hd] at hmap
      cases hmap
    · rw [if_neg hd] at hmap
      obtain rfl := Option.some.inj hmap
      constructor
      · simp [teamSeries]
      · intro p hp
        simp only [teamSeries] at hp
        obtain ⟨i, _hi, heq⟩ := List.mem_map.mp hp
        rw [← heq]
        exact le_max_left 0 _

/-- 30 aggregate rows on 30 distinct days for one team, inside the
180-day window of day 300. -/
def thirtyDayAggs : List CostAggregate :=
  (List.range 30).map fun (i : Nat) =>
    ⟨⟨150 + i, "aws", some "alpha", none, none, none⟩, 10 + (i : ℚ)⟩

/-- Witness for `forecast_spec`: with 30 rows of history the forecast
succeeds and each series carries exactly 7 nonnegative points. -/
theorem forecast_spec_witness :
    30 ≤ (forecastWindow 300 thirtyDayAggs).length ∧
      ∃ out, get_cost_forecast 300 7 thirtyDayAggs = Except.ok out ∧
        ∀ s ∈ out, s.2.length = 7 ∧ ∀ p ∈ s.2, 0 ≤ p.2 :=
  ⟨by decide, (forecast_spec 300 7 thirtyDayAggs).2 (by decide)⟩

end CloudHelm
